import Mathlib

/-!
Verification of the Harmony character-generation engine (`Player.py`).

The definitions below are a shallow embedding of the Python source:
each `def` mirrors one function or table of the source, with Python
floats modelled by `ℚ` (for the exact arithmetic of the boundary /
size / trait / skill stages) or by `ℝ` (for the exponential age
curves), Python's fallible constructors modelled by `Except`, and the
ambient random choices modelled as explicitly injected indices.
-/

namespace Harmony

/-- `AttributeRange` — the `{floor, ceiling, current}` dictionaries used
for every ability and slider in `Player.py`, over exact rationals. -/
structure AttributeRange where
  floor : ℚ
  ceiling : ℚ
  current : ℚ
deriving DecidableEq, Repr

/-- Shallow embedding of `Player.boundary_check` (Player.py:2510-2533).
Python's `//` on numbers is floor division, hence the `⌊·⌋` midpoint. -/
def boundary_check (r : AttributeRange) : AttributeRange :=
  let r1 : AttributeRange :=
    if r.floor < 0 ∧ r.ceiling < 1 then
      { r with floor := 0, ceiling := 1 }
    else if r.floor > 99 ∧ r.ceiling > 99 then
      { r with floor := 99, ceiling := 99 }
    else if r.floor < 0 then
      { r with ceiling := r.ceiling + r.floor, floor := 0 }
    else if r.ceiling > 99 then
      { r with floor := r.floor + (r.ceiling - 99), ceiling := 99 }
    else
      r
  let r2 : AttributeRange :=
    if r1.floor > r1.ceiling then
      let midpoint : ℚ := ⌊(r1.floor + r1.ceiling) / 2⌋
      { r1 with floor := midpoint, ceiling := midpoint }
    else
      r1
  { r2 with current := r2.floor }

/-- The precise domain on which `boundary_check` establishes the
`0 ≤ floor ≤ ceiling ≤ 99` invariant (one-sided overshoots of bounded
size); outside it the shifted bound itself leaves the window. -/
def boundary_check_safe (f c : ℚ) : Prop :=
  (f < 0 ∧ c < 1) ∨
  (f > 99 ∧ c > 99) ∨
  (f < 0 ∧ 1 ≤ c ∧ 0 ≤ f + c ∧ f + c ≤ 99) ∨
  (0 ≤ f ∧ 99 < c ∧ f + c ≤ 198) ∨
  (0 ≤ f ∧ c ≤ 99 ∧ (f ≤ c ∨ (0 ≤ f + c ∧ f + c ≤ 199)))

/-- One `Overflow Points` record of `Player.skill_init_overflow`:
`[current - ceiling, trait, ability]` (Player.py:2554). -/
structure OverflowEntry where
  amount : ℚ
  trait : String
  ability : String
deriving DecidableEq, Repr

/-- The per-`(ability, weight)` body of
`Player.impose_trait_ability_modifiers` (Player.py:2548-2558) up to but
not including the final `boundary_check` call: add `weight*k_ability`
to `current` and `floor`; if `current` now exceeds `ceiling`, record an
`OverflowEntry` and clamp `current` and `floor` to `ceiling`. -/
def impose_trait_entry_clamp (r : AttributeRange) (weight : ℚ)
    (trait ability : String) : AttributeRange × Option OverflowEntry :=
  let k_ability : ℚ := 10
  let r1 : AttributeRange :=
    { r with current := r.current + weight * k_ability,
             floor := r.floor + weight * k_ability }
  if r1.current > r1.ceiling then
    ({ r1 with current := r1.ceiling, floor := r1.ceiling },
     some ⟨r1.current - r1.ceiling, trait, ability⟩)
  else
    (r1, none)

/-- The full per-`(ability, weight)` trait-stage mutation: the clamp
step above followed by `boundary_check` (Player.py:2558). -/
def impose_trait_entry (r : AttributeRange) (weight : ℚ)
    (trait ability : String) : AttributeRange × Option OverflowEntry :=
  let step := impose_trait_entry_clamp r weight trait ability
  (boundary_check step.1, step.2)

/-- The `(Level, XP Required)` columns of `SKILL_PROGRESSION`
(Player.py:49-61). -/
def SKILL_PROGRESSION : List (ℕ × ℚ) :=
  [(0, 0), (1, 500), (2, 1000), (3, 2500), (4, 5000), (5, 12500),
   (6, 25000), (7, 50000), (8, 125000), (9, 250000), (10, 500000)]

/-- The `SKILL_PROGRESSION_DF.loc[df.Level == lvl, XP Required]` lookup
used by `Skillset.get_level_for_xp` (Player.py:2601). -/
def xp_required (lvl : ℕ) : Option ℚ :=
  (SKILL_PROGRESSION.find? (fun p => p.1 == lvl)).map Prod.snd

/-- The `for lvl in range(1, 11)` loop of `Skillset.get_level_for_xp`
(Player.py:2596-2610): walk the levels in order, remembering the last
level whose required XP is met, and `break` at the first level whose
requirement fails (or is absent from the table). -/
def level_scan (xp : ℚ) : List ℕ → ℕ → ℕ
  | [], level => level
  | lvl :: rest, level =>
    match xp_required lvl with
    | some req => if xp ≥ req then level_scan xp rest lvl else level
    | none => level

/-- `Skillset.get_level_for_xp` (Player.py:2592-2610). -/
def get_level_for_xp (xp : ℚ) : ℕ :=
  level_scan xp [1, 2, 3, 4, 5, 6, 7, 8, 9, 10] 0

/-- Spec-side restatement of the level table: the threshold of each
level `0..10`, for phrasing "highest level whose threshold ≤ xp". -/
def spec_threshold : ℕ → ℚ
  | 0 => 0
  | 1 => 500
  | 2 => 1000
  | 3 => 2500
  | 4 => 5000
  | 5 => 12500
  | 6 => 25000
  | 7 => 50000
  | 8 => 125000
  | 9 => 250000
  | 10 => 500000
  | _ => 0

/-- `Skillset` (Player.py:2585-2590): fresh instances start with
`xp = 0`, `level = 0`. -/
structure Skillset where
  name : String
  description : String
  xp : ℚ
  level : ℕ
deriving DecidableEq, Repr

/-- `Skillset.__init__` (Player.py:2586-2590). -/
def Skillset.make (name description : String) : Skillset :=
  ⟨name, description, 0, 0⟩

/-- `Skillset.increment_xp` (Player.py:2628-2647): add the delta to
`xp` (no guard on its sign) and recompute `level` from the new total. -/
def Skillset.increment_xp (s : Skillset) (d_xp : ℚ) : Skillset :=
  { s with xp := s.xp + d_xp, level := get_level_for_xp (s.xp + d_xp) }

/-- A selected trait as `initialize_skillsets` consumes it: its key and
the normalized list of skillset names under its `Skillsets` entry in
`TRAIT_MODIFIERS` (Player.py:2108-2115). -/
structure Trait where
  name : String
  skillsets : List String
deriving DecidableEq, Repr

/-- `learning_rate` in `initialize_skillsets` (Player.py:2183-2186):
`slider[Learning Rate].current / 100`, defaulting to `0.5` when the
slider is absent. -/
def learning_rate_fraction (sliders : List (String × AttributeRange)) : ℚ :=
  match sliders.find? (fun p => p.1 == "Learning Rate") with
  | some p => p.2.current / 100
  | none => 1 / 2

/-- `xp_pool_per_skill` (Player.py:2180): `TRAIT_XP / count`, guarded
to `0` when the trait lists no skillsets. `TRAIT_XP = 500000`. -/
def xp_pool_per_skill (t : Trait) : ℚ :=
  if t.skillsets.length > 0 then 500000 / (t.skillsets.length : ℚ) else 0

/-- The base-XP part of `initialize_skillsets` for one skillset
(Player.py:2152-2193): every selected trait listing the skillset
contributes `learning_rate * normalized_score * xp_pool_per_skill`
through `increment_xp`, independently per trait. -/
def apply_trait_seeding (lr ns : ℚ) (selected : List Trait) (s : Skillset) :
    Skillset :=
  (selected.filter (fun t => t.skillsets.contains s.name)).foldl
    (fun sk t => sk.increment_xp (lr * ns * xp_pool_per_skill t)) s

/-- A genetic marker: the Python strings `'A'..'M'` / `'a'..'m'`,
with the letter identity and the case flag (`isupper`) split out. -/
structure Marker where
  letter : Char
  upper : Bool
deriving DecidableEq, Repr

/-- Python `str.lower()` on a marker. -/
def Marker.lower (m : Marker) : Marker := { m with upper := false }

/-- `Genetics.process_source` (Player.py:2004-2025), with the
`random.randrange` draw of the non-preset branch injected as the
explicit `choice` argument (`randrange(n)` errors on `n = 0`). -/
def process_source (expression_defined : Bool) (choice : ℕ)
    (src : List Marker) : Except String (Marker × List Marker) :=
  if expression_defined then
    match src.find? (fun m => m.upper) with
    | some e => .ok (e, (src.filter (fun m => m != e)).map Marker.lower)
    | none => .error "Expression is defined, but no uppercase marker found"
  else
    if src.length = 0 then
      .error "empty range for randrange"
    else
      let i := choice % src.length
      .ok (src.getD i ⟨'A', true⟩,
        ((List.range src.length).filter (fun j => j != i)).map
          (fun j => (src.getD j ⟨'A', true⟩).lower))

/-- The processed state of `Genetics.__init__` (Player.py:1969-2002):
the three expressed markers and the six dormant ones. -/
structure Genetics where
  expressed : List Marker
  dormant : List Marker
deriving DecidableEq, Repr

/-- `Genetics.__init__` (Player.py:1970-2002): process father, mother
and planet groups in order (each may fail), then collect `expressed`
and `dormant`; modelled in `Except` so a failing group aborts the whole
construction. -/
def mkGenetics (expression_defined : Bool) (cf cm cp : ℕ)
    (father mother planet : List Marker) : Except String Genetics := do
  let fp ← process_source expression_defined cf father
  let mp ← process_source expression_defined cm mother
  let pp ← process_source expression_defined cp planet
  return { expressed := [fp.1, mp.1, pp.1], dormant := fp.2 ++ mp.2 ++ pp.2 }

/-- `Genetics.get_markers` (Player.py:2027-2031): `expressed + dormant`. -/
def get_markers (g : Genetics) : List Marker := g.expressed ++ g.dormant

/-- Python's built-in `round` (banker's rounding, half to even), as
used on the somatic modifiers. -/
def pyRound (q : ℚ) : ℤ :=
  let f : ℤ := ⌊q⌋
  let r : ℚ := q - f
  if r < 1 / 2 then f
  else if 1 / 2 < r then f + 1
  else if Even f then f else f + 1

/-- Python's `str.lower()`. -/
def pyLower (s : String) : String := s.map Char.toLower

/-- `Player.compute_size_modifiers` (Player.py:2238-2338) over exact
rationals; decimal float literals of the source become the same
decimal fractions. Returns the `(floor_modifier, ceiling_modifier)`
pair for the given ability name. -/
def compute_size_modifiers (height_inches weight_pounds : ℚ)
    (ability_name : String) : ℤ × ℤ :=
  let height_feet := height_inches / 12
  let neutral_height_feet : ℚ := 592 / 100
  let neutral_weight : ℚ := 175
  let neutral_bmi : ℚ := 244 / 10
  let height_meters := height_feet * (3048 / 10000)
  let weight_kg := weight_pounds * (453592 / 1000000)
  let bmi := weight_kg / (height_meters ^ 2)
  let height_factor := min (max ((height_feet - neutral_height_feet) * 13) (-20)) 20
  let weight_normalized := (weight_pounds - neutral_weight) / 100
  let weight_factor := min (max (weight_normalized * 20) (-20)) 20
  let bmi_diff := bmi - neutral_bmi
  let bmi_factor := min (max (bmi_diff / (75 / 100)) (-20)) 20
  if |height_feet - neutral_height_feet| < 1 / 100 ∧
      |weight_pounds - neutral_weight| < 1 then
    (0, 0)
  else
    let a := pyLower ability_name
    if a = "strength" then
      (pyRound (height_factor * (7/10) + max 0 weight_factor * (3/10)),
       pyRound (height_factor * (4/10) + weight_factor * (6/10)))
    else if a = "speed" then
      (pyRound (-(max 0 weight_factor) * (6/10) - |bmi_factor| * (4/10)),
       pyRound (min height_factor 10 * (4/10) - max 0 weight_factor * (7/10) -
         |bmi_factor| * (3/10)))
    else if a = "agility" then
      (pyRound (-(max 0 height_factor) * (5/10) - max 0 bmi_factor * (5/10)),
       pyRound (-height_factor * (4/10) - max 0 bmi_factor * (7/10) +
         min 0 weight_factor * (3/10)))
    else if a = "reflexes" then
      (pyRound (-height_factor * (8/10) - |bmi_factor| * (2/10)),
       pyRound (-height_factor * (7/10) - |bmi_factor| * (3/10) +
         min 0 weight_factor * (1/10)))
    else if a = "resilience" then
      (pyRound (min bmi_factor 5 * (5/10) + min height_factor 5 * (2/10) -
         max (weight_factor - 5) 0 * (4/10)),
       pyRound (-|bmi_factor - 2| * (4/10) + min height_factor 8 * (3/10) -
         max (weight_factor - 5) 0 * (5/10)))
    else if a = "recovery" then
      (pyRound (-|bmi_factor - 2| * (6/10) - |weight_factor| * (3/10)),
       pyRound (-|bmi_factor - 2| * (5/10) + min height_factor 5 * (2/10) -
         |weight_factor| * (2/10)))
    else if a = "stealth" then
      (pyRound (-(max 0 height_factor) * (6/10) - max 0 weight_factor * (4/10)),
       pyRound (-height_factor * (5/10) - weight_factor * (5/10)))
    else if a = "intimidation" then
      (pyRound (height_factor * (6/10) + max 0 weight_factor * (4/10)),
       pyRound (height_factor * (7/10) + weight_factor * (3/10)))
    else
      (0, 0)

/-- `Player.size_alter_sliders` (Player.py:2388-2418): the Inverse
Metabolic Rate delta from normalized height/weight distance from the
neutral reference; every other slider gets `0`. -/
def size_alter_sliders (height_inches weight_pounds : ℚ)
    (slider_name : String) : ℚ :=
  if slider_name = "Inverse Metabolic Rate" then
    let min_h : ℚ := 51
    let max_h : ℚ := 90
    let min_w : ℚ := 70
    let max_w : ℚ := 500
    let neut_h : ℚ := 71
    let neut_w : ℚ := 175
    let h_norm0 :=
      if height_inches ≤ neut_h then (height_inches - neut_h) / (neut_h - min_h)
      else (height_inches - neut_h) / (max_h - neut_h)
    let h_norm := max (min h_norm0 1) (-1)
    let w_norm0 :=
      if weight_pounds ≤ neut_w then (weight_pounds - neut_w) / (neut_w - min_w)
      else (weight_pounds - neut_w) / (max_w - neut_w)
    let w_norm := max (min w_norm0 1) (-1)
    let combined := (h_norm + w_norm) / 2;
    -combined * 20
  else
    0

/-- The per-ability body of `Player.size_alter_abilities`
(Player.py:2340-2353): add the somatic floor/ceiling modifiers, then
`boundary_check`. -/
def size_alter_ability (height_inches weight_pounds : ℚ)
    (ability_name : String) (r : AttributeRange) : AttributeRange :=
  let mods := compute_size_modifiers height_inches weight_pounds ability_name
  boundary_check
    { r with floor := r.floor + (mods.1 : ℚ), ceiling := r.ceiling + (mods.2 : ℚ) }

/-- The curve families of `ABILITY_AGE_CURVES` (Player.py:69-118). -/
inductive CurveKind where
  | bell
  | sigmoid
deriving DecidableEq, Repr

/-- `ABILITY_AGE_CURVES` (Player.py:69-118): `(kind, centre-or-peak,
width-or-steepness)` per ability. -/
def ABILITY_AGE_CURVES : List (String × CurveKind × ℚ × ℚ) :=
  [("Strength", .bell, 35, 35), ("Speed", .bell, 25, 25),
   ("Agility", .bell, 20, 30), ("Reflexes", .bell, 28, 30),
   ("Resilience", .bell, 25, 35), ("Recovery", .bell, 17, 25),
   ("Technique", .bell, 70, 35),
   ("Willpower", .bell, 68, 40), ("Perception", .bell, 83, 35),
   ("Strategy", .bell, 119, 25), ("Stealth", .bell, 50, 30),
   ("Persuasion", .bell, 111, 40), ("Diplomacy", .bell, 118, 60),
   ("Deception", .bell, 63, 40), ("Intimidation", .bell, 75, 60),
   ("Medicine", .bell, 83, 43), ("Brewing", .bell, 78, 38),
   ("Crafting", .bell, 69, 34), ("Smithing", .bell, 59, 33),
   ("Construction", .bell, 77, 37), ("Foraging", .bell, 87, 34),
   ("Farming", .bell, 81, 42), ("Hunting", .bell, 48, 36),
   ("Fishing", .bell, 93, 41), ("Tracking", .bell, 46, 28),
   ("Thieving", .bell, 28, 20), ("Trade", .bell, 86, 30),
   ("Navigation", .bell, 77, 45), ("Portaling", .bell, 99, 40),
   ("Taming", .bell, 53, 35),
   ("Arcanum", .bell, 110, 70), ("Symbiosis", .bell, 90, 60),
   ("Durabilis", .bell, 60, 50), ("Equilibrio", .bell, 110, 65),
   ("Sapien", .bell, 75, 55), ("Metamorphosis", .bell, 50, 45)]

/-- `ABILITY_AGE_CURVES.get(ability, ("sigmoid", 0.50, 3.0))`
(Player.py:2374-2376). -/
def ability_age_curve (ability : String) : CurveKind × ℚ × ℚ :=
  match ABILITY_AGE_CURVES.find? (fun p => p.1 == ability) with
  | some p => p.2
  | none => (CurveKind.sigmoid, 1 / 2, 3)

/-- The universal late-life decay of `compute_age_modifiers`
(Player.py:2372): `exp(-0.08 * max(age - 120, 0))`. -/
noncomputable def late_decay (age : ℤ) : ℝ :=
  Real.exp (-(8 / 100 : ℝ) * max ((age : ℝ) - 120) 0)

/-- `Player.compute_age_modifiers` (Player.py:2359-2386): the 0-to-1
ability modifier at the given whole-year age, `raw * late`. -/
noncomputable def compute_age_modifiers (age : ℤ) (ability : String) : ℝ :=
  let ageR : ℝ := (age : ℝ)
  let age_norm : ℝ := min (max ((ageR - 17) / (145 - 17)) 0) 1
  let late : ℝ := late_decay age
  match ability_age_curve ability with
  | (CurveKind.sigmoid, centre, steep) =>
      (1 / (1 + Real.exp (-(steep : ℝ) * (age_norm - (centre : ℝ))))) * late
  | (CurveKind.bell, peak, width) =>
      Real.exp (-(((ageR - (peak : ℝ)) ^ 2)) / (2 * (width : ℝ) ^ 2)) * late

/-- A floor/ceiling/current triple over `ℝ`, as the chronological stage
sees it (`current` becomes a float there). -/
structure AgeRange where
  floor : ℝ
  ceiling : ℝ
  current : ℝ

/-- The per-ability body of `Player.age_alter_abilities`
(Player.py:2458-2466): overwrite `current` with
`floor + modifier * (ceiling - floor)`. -/
noncomputable def age_alter_ability (age : ℤ) (ability : String)
    (r : AgeRange) : AgeRange :=
  { r with current :=
      r.floor + compute_age_modifiers age ability * (r.ceiling - r.floor) }

end Harmony

namespace Harmony

theorem boundary_check_current (r : AttributeRange) :
    (boundary_check r).current = (boundary_check r).floor := by
  simp only [boundary_check]

/-- After `boundary_check`, `floor ≤ ceiling` holds unconditionally:
every branch either preserves it or collapses both bounds to one
midpoint. -/
theorem boundary_check_floor_le_ceiling (r : AttributeRange) :
    (boundary_check r).floor ≤ (boundary_check r).ceiling := by
  simp only [boundary_check]
  split_ifs <;> simp_all

/-- C1 (counterexample): with arbitrary integer floor/ceiling inputs the
normalization invariant fails: `boundary_check` on `floor = -1`,
`ceiling = 200` shifts the ceiling to `199`, leaving `ceiling > 99`. -/
theorem boundary_check_invariant_counterexample :
    ¬ (0 ≤ (boundary_check ⟨-1, 200, 0⟩).floor ∧
       (boundary_check ⟨-1, 200, 0⟩).floor ≤ (boundary_check ⟨-1, 200, 0⟩).ceiling ∧
       (boundary_check ⟨-1, 200, 0⟩).ceiling ≤ 99) := by
  have h : boundary_check ⟨-1, 200, 0⟩ = ⟨0, 199, 0⟩ := by
    norm_num [boundary_check]
  rw [h]
  norm_num

theorem boundary_check_low_low (r : AttributeRange)
    (h1 : r.floor < 0) (h2 : r.ceiling < 1) :
    boundary_check r = ⟨0, 1, 0⟩ := by
  simp only [boundary_check, if_pos (And.intro h1 h2)]
  norm_num

theorem boundary_check_high_high (r : AttributeRange)
    (h1 : r.floor > 99) (h2 : r.ceiling > 99) :
    boundary_check r = ⟨99, 99, 99⟩ := by
  have hn1 : ¬(r.floor < 0 ∧ r.ceiling < 1) := fun hh => absurd hh.1 (by linarith)
  simp only [boundary_check, if_neg hn1, if_pos (And.intro h1 h2)]
  norm_num

theorem boundary_check_neg_floor (r : AttributeRange)
    (h1 : r.floor < 0) (h2 : 1 ≤ r.ceiling) (h3 : 0 ≤ r.ceiling + r.floor) :
    boundary_check r = ⟨0, r.ceiling + r.floor, 0⟩ := by
  have hn1 : ¬(r.floor < 0 ∧ r.ceiling < 1) := fun hh => absurd hh.2 (not_lt.mpr h2)
  have hn2 : ¬(r.floor > 99 ∧ r.ceiling > 99) := fun hh => absurd hh.1 (by linarith)
  simp only [boundary_check, if_neg hn1, if_neg hn2, if_pos h1]
  rw [if_neg (by simpa using not_lt.mpr h3)]

theorem boundary_check_big_ceiling (r : AttributeRange)
    (h1 : 0 ≤ r.floor) (h2 : r.floor ≤ 99) (h3 : r.ceiling > 99)
    (h4 : r.floor + r.ceiling ≤ 198) :
    boundary_check r = ⟨r.floor + (r.ceiling - 99), 99, r.floor + (r.ceiling - 99)⟩ := by
  have hn1 : ¬(r.floor < 0 ∧ r.ceiling < 1) := fun hh => absurd hh.1 (not_lt.mpr h1)
  have hn2 : ¬(r.floor > 99 ∧ r.ceiling > 99) := fun hh => absurd hh.1 (not_lt.mpr h2)
  have hn3 : ¬(r.floor < 0) := not_lt.mpr h1
  simp only [boundary_check, if_neg hn1, if_neg hn2, if_neg hn3, if_pos h3]
  rw [if_neg (by show ¬(r.floor + (r.ceiling - 99) > (99 : ℚ)); linarith)]

theorem boundary_check_in_range (r : AttributeRange)
    (h1 : 0 ≤ r.floor) (h2 : r.ceiling ≤ 99) (h3 : r.floor ≤ r.ceiling) :
    boundary_check r = ⟨r.floor, r.ceiling, r.floor⟩ := by
  have hn1 : ¬(r.floor < 0 ∧ r.ceiling < 1) := fun hh => absurd hh.1 (not_lt.mpr h1)
  have hn2 : ¬(r.floor > 99 ∧ r.ceiling > 99) := fun hh => absurd hh.2 (not_lt.mpr h2)
  have hn3 : ¬(r.floor < 0) := not_lt.mpr h1
  have hn4 : ¬(r.ceiling > 99) := not_lt.mpr h2
  simp only [boundary_check, if_neg hn1, if_neg hn2, if_neg hn3, if_neg hn4]
  rw [if_neg (not_lt.mpr h3)]

theorem boundary_check_collapse (r : AttributeRange)
    (h1 : 0 ≤ r.floor) (h2 : r.ceiling ≤ 99) (h3 : r.ceiling < r.floor) :
    boundary_check r =
      ⟨(⌊(r.floor + r.ceiling) / 2⌋ : ℤ), (⌊(r.floor + r.ceiling) / 2⌋ : ℤ),
        (⌊(r.floor + r.ceiling) / 2⌋ : ℤ)⟩ := by
  have hn1 : ¬(r.floor < 0 ∧ r.ceiling < 1) := fun hh => absurd hh.1 (not_lt.mpr h1)
  have hn2 : ¬(r.floor > 99 ∧ r.ceiling > 99) := fun hh => absurd hh.2 (not_lt.mpr h2)
  have hn3 : ¬(r.floor < 0) := not_lt.mpr h1
  have hn4 : ¬(r.ceiling > 99) := not_lt.mpr h2
  simp only [boundary_check, if_neg hn1, if_neg hn2, if_neg hn3, if_neg hn4]
  rw [if_pos h3]

theorem floor_half_bounds {x : ℚ} (h0 : 0 ≤ x) (h199 : x ≤ 199) :
    0 ≤ ((⌊x / 2⌋ : ℤ) : ℚ) ∧ ((⌊x / 2⌋ : ℤ) : ℚ) ≤ 99 := by
  constructor
  · exact_mod_cast Int.le_floor.mpr (by push_cast; linarith)
  · have h100 : ⌊x / 2⌋ < 100 := Int.floor_lt.mpr (by push_cast; linarith)
    have : ⌊x / 2⌋ ≤ 99 := by omega
    exact_mod_cast this

theorem boundary_check_safe_sound (r : AttributeRange)
    (h : boundary_check_safe r.floor r.ceiling) :
    0 ≤ (boundary_check r).floor ∧
    (boundary_check r).floor ≤ (boundary_check r).ceiling ∧
    (boundary_check r).ceiling ≤ 99 := by
  rcases h with ⟨h1, h2⟩ | ⟨h1, h2⟩ | ⟨h1, h2, h3, h4⟩ | ⟨h1, h2, h3⟩ | ⟨h1, h2, hor⟩
  · rw [boundary_check_low_low r h1 h2]; norm_num
  · rw [boundary_check_high_high r h1 h2]; norm_num
  · rw [boundary_check_neg_floor r h1 h2 (by linarith)]
    exact ⟨le_refl 0, by show (0 : ℚ) ≤ r.ceiling + r.floor; linarith,
      by show r.ceiling + r.floor ≤ (99 : ℚ); linarith⟩
  · rw [boundary_check_big_ceiling r h1 (by linarith) h2 h3]
    exact ⟨by show (0 : ℚ) ≤ r.floor + (r.ceiling - 99); linarith,
      by show r.floor + (r.ceiling - 99) ≤ (99 : ℚ); linarith,
      by show (99 : ℚ) ≤ 99; linarith⟩
  · rcases le_or_lt r.floor r.ceiling with hle | hgt
    · rw [boundary_check_in_range r h1 h2 hle]
      exact ⟨h1, hle, h2⟩
    · rcases hor with hor | ⟨ha, hb⟩
      · exact absurd hor (not_le.mpr hgt)
      · rw [boundary_check_collapse r h1 h2 hgt]
        have := floor_half_bounds (x := r.floor + r.ceiling) ha hb
        exact ⟨this.1, le_refl _, this.2⟩

/-- C1 (amended): after `boundary_check`, `floor ≤ ceiling` and
`current = floor` hold for every input; the full invariant
`0 ≤ floor ≤ ceiling ≤ 99` holds whenever the incoming range is
overshot on at most one side by a bounded amount — the
`boundary_check_safe` inputs — but not for arbitrary integer inputs. -/
theorem boundary_check_invariant (f c cur : ℤ)
    (h : boundary_check_safe (f : ℚ) (c : ℚ)) :
    0 ≤ (boundary_check ⟨(f : ℚ), (c : ℚ), (cur : ℚ)⟩).floor ∧
    (boundary_check ⟨(f : ℚ), (c : ℚ), (cur : ℚ)⟩).floor ≤
      (boundary_check ⟨(f : ℚ), (c : ℚ), (cur : ℚ)⟩).ceiling ∧
    (boundary_check ⟨(f : ℚ), (c : ℚ), (cur : ℚ)⟩).ceiling ≤ 99 ∧
    (boundary_check ⟨(f : ℚ), (c : ℚ), (cur : ℚ)⟩).current =
      (boundary_check ⟨(f : ℚ), (c : ℚ), (cur : ℚ)⟩).floor := by
  have main := boundary_check_safe_sound ⟨(f : ℚ), (c : ℚ), (cur : ℚ)⟩ h
  exact ⟨main.1, main.2.1, main.2.2, boundary_check_current _⟩

/-- C2: in the trait stage, when the additive delta `d = weight*10`
exceeds the pre-trait headroom `h = ceiling - current`, an
`OverflowEntry` with amount exactly `d - h` is recorded for that
`(trait, ability)`, and after the clamp `current = ceiling` and
`floor = ceiling`; the subsequent `boundary_check` keeps the same
recorded entry. -/
theorem trait_overflow_conservation (r : AttributeRange) (weight : ℚ)
    (trait ability : String)
    (hover : r.ceiling - r.current < weight * 10) :
    (impose_trait_entry_clamp r weight trait ability).2 =
      some ⟨weight * 10 - (r.ceiling - r.current), trait, ability⟩ ∧
    (impose_trait_entry_clamp r weight trait ability).1.current = r.ceiling ∧
    (impose_trait_entry_clamp r weight trait ability).1.floor = r.ceiling ∧
    (impose_trait_entry r weight trait ability).2 =
      (impose_trait_entry_clamp r weight trait ability).2 := by
  have hcond : r.current + weight * 10 > r.ceiling := by linarith
  simp only [impose_trait_entry, impose_trait_entry_clamp]
  rw [if_pos (show r.current + weight * 10 > r.ceiling from hcond)]
  refine ⟨?_, rfl, rfl, trivial⟩
  simp only [Option.some.injEq, OverflowEntry.mk.injEq]
  exact ⟨by ring, trivial, trivial⟩

/-- C2 witness: a trait delta of `10` applied where the headroom is `5`
records overflow `5` and clamps `current` and `floor` to the ceiling. -/
theorem trait_overflow_conservation_witness :
    ((⟨0, 5, 0⟩ : AttributeRange).ceiling - (⟨0, 5, 0⟩ : AttributeRange).current
        < (1 : ℚ) * 10) ∧
    (impose_trait_entry_clamp ⟨0, 5, 0⟩ 1 "Juggernaut" "Strength").2 =
      some ⟨(1 : ℚ) * 10 - ((⟨0, 5, 0⟩ : AttributeRange).ceiling -
        (⟨0, 5, 0⟩ : AttributeRange).current), "Juggernaut", "Strength"⟩ ∧
    (impose_trait_entry_clamp ⟨0, 5, 0⟩ 1 "Juggernaut" "Strength").1.current =
      (⟨0, 5, 0⟩ : AttributeRange).ceiling ∧
    (impose_trait_entry_clamp ⟨0, 5, 0⟩ 1 "Juggernaut" "Strength").1.floor =
      (⟨0, 5, 0⟩ : AttributeRange).ceiling ∧
    (impose_trait_entry ⟨0, 5, 0⟩ 1 "Juggernaut" "Strength").2 =
      (impose_trait_entry_clamp ⟨0, 5, 0⟩ 1 "Juggernaut" "Strength").2 :=
  ⟨by norm_num,
   trait_overflow_conservation ⟨0, 5, 0⟩ 1 "Juggernaut" "Strength" (by norm_num)⟩

theorem get_level_unfold (xp : ℚ) :
    get_level_for_xp xp =
      if 500 ≤ xp then
        if 1000 ≤ xp then
          if 2500 ≤ xp then
            if 5000 ≤ xp then
              if 12500 ≤ xp then
                if 25000 ≤ xp then
                  if 50000 ≤ xp then
                    if 125000 ≤ xp then
                      if 250000 ≤ xp then
                        if 500000 ≤ xp then 10 else 9
                      else 8
                    else 7
                  else 6
                else 5
              else 4
            else 3
          else 2
        else 1
      else 0 := by
  rfl

theorem spec_threshold_mono :
    ∀ a < 11, ∀ b < 11, a ≤ b → spec_threshold a ≤ spec_threshold b := by
  decide

theorem get_level_le_ten (xp : ℚ) : get_level_for_xp xp ≤ 10 := by
  rw [get_level_unfold]
  split_ifs <;> norm_num

set_option maxHeartbeats 1600000 in
theorem get_level_char (xp : ℚ) (hxp : 0 ≤ xp) :
    spec_threshold (get_level_for_xp xp) ≤ xp ∧
    ∀ l : ℕ, l ≤ 10 → spec_threshold l ≤ xp → l ≤ get_level_for_xp xp := by
  rw [get_level_unfold]
  split_ifs <;>
    refine ⟨by simp only [spec_threshold]; linarith, ?_⟩ <;>
    intro l hl hthr <;>
    interval_cases l <;>
    simp only [spec_threshold] at hthr <;>
    linarith

theorem get_level_mono (xp xp2 : ℚ) (hxp : 0 ≤ xp) (hle : xp ≤ xp2) :
    get_level_for_xp xp ≤ get_level_for_xp xp2 := by
  have h1 := get_level_char xp hxp
  have h2 := get_level_char xp2 (le_trans hxp hle)
  exact h2.2 _ (get_level_le_ten xp) (le_trans h1.1 hle)

/-- C3: for non-negative xp, `get_level_for_xp` returns the highest
level in `0..10` whose table threshold is `≤ xp`; the level is a
non-decreasing step function of xp; `xp = 500` gives level `1 ≥ 1` and
`xp = 499` gives level `0`, also through a fresh `Skillset`. -/
theorem get_level_for_xp_correct (xp : ℚ) (hxp : 0 ≤ xp) :
    get_level_for_xp xp ≤ 10 ∧
    spec_threshold (get_level_for_xp xp) ≤ xp ∧
    (∀ l : ℕ, l ≤ 10 → spec_threshold l ≤ xp → l ≤ get_level_for_xp xp) ∧
    (∀ xp2 : ℚ, xp ≤ xp2 → get_level_for_xp xp ≤ get_level_for_xp xp2) ∧
    get_level_for_xp 500 = 1 ∧
    get_level_for_xp 499 = 0 ∧
    1 ≤ ((Skillset.make "fresh" "fresh").increment_xp 500).level ∧
    ((Skillset.make "fresh" "fresh").increment_xp 499).level = 0 := by
  refine ⟨get_level_le_ten xp, (get_level_char xp hxp).1, (get_level_char xp hxp).2,
    fun xp2 hle => get_level_mono xp xp2 hxp hle,
    by rw [get_level_unfold]; norm_num,
    by rw [get_level_unfold]; norm_num,
    by simp only [Skillset.increment_xp, Skillset.make]
       rw [get_level_unfold]; norm_num,
    by simp only [Skillset.increment_xp, Skillset.make]
       rw [get_level_unfold]; norm_num⟩

/-- C3 witness: the characterization applied at the concrete value
`xp = 3`. -/
theorem get_level_for_xp_correct_witness :
    (0 : ℚ) ≤ 3 ∧
    (get_level_for_xp 3 ≤ 10 ∧
     spec_threshold (get_level_for_xp 3) ≤ 3 ∧
     (∀ l : ℕ, l ≤ 10 → spec_threshold l ≤ 3 → l ≤ get_level_for_xp 3) ∧
     (∀ xp2 : ℚ, 3 ≤ xp2 → get_level_for_xp 3 ≤ get_level_for_xp xp2) ∧
     get_level_for_xp 500 = 1 ∧
     get_level_for_xp 499 = 0 ∧
     1 ≤ ((Skillset.make "fresh" "fresh").increment_xp 500).level ∧
     ((Skillset.make "fresh" "fresh").increment_xp 499).level = 0) :=
  ⟨by norm_num, get_level_for_xp_correct 3 (by norm_num)⟩

/-- C8 (counterexample): `increment_xp` has no sign guard, so a
negative delta drives `xp` negative and below its previous value,
refuting "xp stays non-negative and non-decreasing for every delta". -/
theorem increment_xp_counterexample :
    ¬ (0 ≤ ((Skillset.make "Brace" "d").increment_xp (-1)).xp ∧
       (Skillset.make "Brace" "d").xp ≤
         ((Skillset.make "Brace" "d").increment_xp (-1)).xp) := by
  intro h
  have hx : ((Skillset.make "Brace" "d").increment_xp (-1)).xp = -1 := by
    simp only [Skillset.increment_xp, Skillset.make]
    norm_num
  rw [hx] at h
  exact absurd h.1 (by norm_num)

/-- C8 (amended): for every non-negative delta, `increment_xp` keeps
`xp` non-negative and non-decreasing, and the level is always the
table level of the new total, clamped into `0..10`. -/
theorem increment_xp_invariant (s : Skillset) (d : ℚ)
    (hs : 0 ≤ s.xp) (hd : 0 ≤ d) :
    0 ≤ s.xp ∧
    s.xp ≤ (s.increment_xp d).xp ∧
    0 ≤ (s.increment_xp d).xp ∧
    (s.increment_xp d).xp = s.xp + d ∧
    (s.increment_xp d).level = get_level_for_xp ((s.increment_xp d).xp) ∧
    (s.increment_xp d).level ≤ 10 :=
  ⟨hs, by simp only [Skillset.increment_xp]; linarith,
   by simp only [Skillset.increment_xp]; linarith,
   rfl, rfl, get_level_le_ten _⟩

/-- C8 witness: the amended invariant applied to a fresh skillset and
the concrete delta `250`. -/
theorem increment_xp_invariant_witness :
    0 ≤ (Skillset.make "w" "w").xp ∧ (0 : ℚ) ≤ 250 ∧
    (0 ≤ (Skillset.make "w" "w").xp ∧
     (Skillset.make "w" "w").xp ≤ ((Skillset.make "w" "w").increment_xp 250).xp ∧
     0 ≤ ((Skillset.make "w" "w").increment_xp 250).xp ∧
     ((Skillset.make "w" "w").increment_xp 250).xp = (Skillset.make "w" "w").xp + 250 ∧
     ((Skillset.make "w" "w").increment_xp 250).level =
       get_level_for_xp (((Skillset.make "w" "w").increment_xp 250).xp) ∧
     ((Skillset.make "w" "w").increment_xp 250).level ≤ 10) :=
  ⟨le_refl 0, by norm_num,
   increment_xp_invariant (Skillset.make "w" "w") 250 (le_refl 0) (by norm_num)⟩

theorem increment_foldl_xp (lr ns : ℚ) (l : List Trait) (s : Skillset) :
    (l.foldl (fun sk t => sk.increment_xp (lr * ns * xp_pool_per_skill t)) s).xp =
      s.xp + (l.map (fun t => lr * ns * xp_pool_per_skill t)).sum := by
  induction l generalizing s with
  | nil => simp
  | cons t ts ih =>
    rw [List.foldl_cons, ih, List.map_cons, List.sum_cons]
    simp only [Skillset.increment_xp]
    ring

/-- C4: for every skillset, each selected trait listing it contributes
exactly `learningRateFraction * normalizedScore * (500000 / count)` XP,
accumulating independently per listing trait; the learning-rate
fraction is the Learning Rate slider's `current / 100`, `0.5` when the
slider is absent; a trait listing no skillsets contributes nothing and
its guarded pool is `0` (no division by zero). -/
theorem initialize_skillsets_xp (lr ns : ℚ) (selected : List Trait)
    (s : Skillset) :
    (apply_trait_seeding lr ns selected s).xp =
      s.xp + ((selected.filter (fun t => t.skillsets.contains s.name)).map
        (fun t => lr * ns * (500000 / (t.skillsets.length : ℚ)))).sum ∧
    (∀ t : Trait, t.skillsets = [] →
        apply_trait_seeding lr ns (t :: selected) s =
          apply_trait_seeding lr ns selected s) ∧
    (∀ (sliders : List (String × AttributeRange)) (nm : String)
        (r : AttributeRange),
        sliders.find? (fun p => p.1 == "Learning Rate") = some (nm, r) →
        learning_rate_fraction sliders = r.current / 100) ∧
    (∀ sliders : List (String × AttributeRange),
        sliders.find? (fun p => p.1 == "Learning Rate") = none →
        learning_rate_fraction sliders = 1 / 2) ∧
    (∀ t : Trait, t.skillsets.length = 0 → xp_pool_per_skill t = 0) := by
  refine ⟨?_, ?_, ?_, ?_, ?_⟩
  · rw [apply_trait_seeding, increment_foldl_xp]
    congr 1
    refine congrArg List.sum (List.map_congr_left ?_)
    intro t ht
    have hmem := (List.mem_filter.mp ht).2
    have hlen : t.skillsets.length > 0 := by
      cases hsk : t.skillsets with
      | nil => rw [hsk] at hmem; simp [List.contains] at hmem
      | cons a as => simp [hsk]
    rw [xp_pool_per_skill, if_pos hlen]
  · intro t ht
    simp [apply_trait_seeding, List.filter_cons, ht, List.contains]
  · intro sliders nm r hfind
    simp [learning_rate_fraction, hfind]
  · intro sliders hfind
    simp [learning_rate_fraction, hfind]
  · intro t ht
    simp [xp_pool_per_skill, ht]

/-- C4 witness: the seeding equation applied to the concrete selection
`[Medic {First Aid}]` and a fresh skillset named `First Aid`, with the
empty-trait guard discharged on a trait listing no skillsets. -/
theorem initialize_skillsets_xp_witness :
    (apply_trait_seeding (1/2) (7/10) [⟨"Medic", ["First Aid"]⟩]
        (Skillset.make "First Aid" "d")).xp =
      (Skillset.make "First Aid" "d").xp +
        ((([⟨"Medic", ["First Aid"]⟩] : List Trait).filter
            (fun t => t.skillsets.contains (Skillset.make "First Aid" "d").name)).map
          (fun t => (1/2) * (7/10) * (500000 / (t.skillsets.length : ℚ)))).sum ∧
    apply_trait_seeding (1/2) (7/10)
        (⟨"Hermit", []⟩ :: [⟨"Medic", ["First Aid"]⟩])
        (Skillset.make "First Aid" "d") =
      apply_trait_seeding (1/2) (7/10) [⟨"Medic", ["First Aid"]⟩]
        (Skillset.make "First Aid" "d") :=
  ⟨(initialize_skillsets_xp (1/2) (7/10) [⟨"Medic", ["First Aid"]⟩]
      (Skillset.make "First Aid" "d")).1,
   (initialize_skillsets_xp (1/2) (7/10) [⟨"Medic", ["First Aid"]⟩]
      (Skillset.make "First Aid" "d")).2.1 ⟨"Hermit", []⟩ rfl⟩

theorem find_upper_one (src : List Marker)
    (h : (src.filter (fun m => m.upper)).length = 1) :
    ∃ e, src.find? (fun m => m.upper) = some e ∧ e.upper = true ∧
      (src.filter (fun m => m != e)).length = src.length - 1 := by
  induction src with
  | nil => simp at h
  | cons a t ih =>
    by_cases ha : a.upper = true
    · have htz : (t.filter (fun m => m.upper)).length = 0 := by
        rw [List.filter_cons] at h
        simp only [ha, if_true] at h
        simpa using h
      have ht : ∀ m ∈ t, m.upper = false := by
        intro m hm
        have hnil := List.filter_eq_nil_iff.mp (List.length_eq_zero.mp htz) m hm
        simpa using hnil
      refine ⟨a, List.find?_cons_of_pos t ha, ha, ?_⟩
      rw [List.filter_cons]
      simp only [bne_self_eq_false, Bool.false_eq_true, if_false]
      have heq : t.filter (fun m => m != a) = t := by
        apply List.filter_eq_self.mpr
        intro m hm
        have hmf := ht m hm
        simp only [bne_iff_ne, ne_eq]
        intro hma
        rw [hma, ha] at hmf
        exact Bool.noConfusion hmf
      rw [heq]
      simp
    · have ha2 : a.upper = false := by simpa using ha
      have hh : (t.filter (fun m => m.upper)).length = 1 := by
        rw [List.filter_cons] at h
        simpa [ha2] using h
      obtain ⟨e, hfind, hup, hlen⟩ := ih hh
      have htpos : 1 ≤ t.length := by
        rw [← hh]
        exact List.length_filter_le _ t
      refine ⟨e, ?_, hup, ?_⟩
      · rw [List.find?_cons_of_neg t (by simp [ha2])]
        exact hfind
      · rw [List.filter_cons]
        have hane : (a != e) = true := by
          simp only [bne_iff_ne, ne_eq]
          intro hae
          rw [hae, hup] at ha2
          exact Bool.noConfusion ha2
        rw [hane]
        simp only [if_true, List.length_cons, hlen]
        omega

theorem mem_pair {α : Type} {m x y : α} (h : m ∈ [x, y]) : m = x ∨ m = y := by
  simpa using h

theorem mem_triple {α : Type} {m x y z : α} (h : m ∈ [x, y, z]) :
    m = x ∨ m = y ∨ m = z := by
  simpa using h

theorem process_source_random_eval (ch : ℕ) (a b c : Marker) :
    process_source false ch [a, b, c] =
      if ch % 3 = 0 then .ok (a, [b.lower, c.lower])
      else if ch % 3 = 1 then .ok (b, [a.lower, c.lower])
      else .ok (c, [a.lower, b.lower]) := by
  have h3 : ch % 3 = 0 ∨ ch % 3 = 1 ∨ ch % 3 = 2 := by omega
  simp only [process_source, List.length_cons, List.length_nil]
  rcases h3 with h | h | h <;> simp [h, List.range_succ, List.getD]

theorem process_source_spec (ed : Bool) (ch : ℕ) (src : List Marker)
    (hlen : src.length = 3)
    (hok : if ed then (src.filter (fun m => m.upper)).length = 1
           else ∀ m ∈ src, m.upper = true) :
    ∃ e d, process_source ed ch src = .ok (e, d) ∧ e.upper = true ∧
      d.length = 2 ∧ ∀ m ∈ d, m.upper = false := by
  cases ed with
  | true =>
    simp only [if_true] at hok
    obtain ⟨e, hfind, hup, hlen2⟩ := find_upper_one src hok
    refine ⟨e, (src.filter (fun m => m != e)).map Marker.lower, ?_, hup, ?_, ?_⟩
    · simp [process_source, hfind]
    · rw [List.length_map, hlen2, hlen]
    · intro m hm
      obtain ⟨x, _, hx⟩ := List.mem_map.mp hm
      rw [← hx]
      rfl
  | false =>
    simp only [Bool.false_eq_true, if_false] at hok
    obtain ⟨a, b, c, hsrc⟩ : ∃ a b c, src = [a, b, c] := by
      match src, hlen with
      | [a, b, c], _ => exact ⟨a, b, c, rfl⟩
    subst hsrc
    rw [process_source_random_eval]
    have h3 : ch % 3 = 0 ∨ ch % 3 = 1 ∨ ch % 3 = 2 := by omega
    rcases h3 with h | h | h
    · rw [if_pos h]
      refine ⟨a, [b.lower, c.lower], rfl, hok a (by simp), rfl, ?_⟩
      intro m hmem
      rcases mem_pair hmem with he | he <;> rw [he] <;> rfl
    · rw [if_neg (by omega), if_pos h]
      refine ⟨b, [a.lower, c.lower], rfl, hok b (by simp), rfl, ?_⟩
      intro m hmem
      rcases mem_pair hmem with he | he <;> rw [he] <;> rfl
    · rw [if_neg (by omega), if_neg (by omega)]
      refine ⟨c, [a.lower, b.lower], rfl, hok c (by simp), rfl, ?_⟩
      intro m hmem
      rcases mem_pair hmem with he | he <;> rw [he] <;> rfl

/-- C6: under well-formed inputs (3 markers per group; in preset mode
exactly one upper-case marker per group, in random mode all markers
still upper-case), construction succeeds and `get_markers` returns 9
entries — the 3 expressed (one per group, all upper-case) followed by
the 6 dormant (all lower-case) — so exactly 3 upper and 6 lower. -/
theorem get_markers_correct (ed : Bool) (cf cm cp : ℕ)
    (father mother planet : List Marker)
    (hfl : father.length = 3) (hml : mother.length = 3)
    (hpl : planet.length = 3)
    (hf : if ed then (father.filter (fun m => m.upper)).length = 1
          else ∀ m ∈ father, m.upper = true)
    (hm : if ed then (mother.filter (fun m => m.upper)).length = 1
          else ∀ m ∈ mother, m.upper = true)
    (hp : if ed then (planet.filter (fun m => m.upper)).length = 1
          else ∀ m ∈ planet, m.upper = true) :
    ∃ g, mkGenetics ed cf cm cp father mother planet = .ok g ∧
      (get_markers g).length = 9 ∧
      (get_markers g).take 3 = g.expressed ∧
      (get_markers g).drop 3 = g.dormant ∧
      g.expressed.length = 3 ∧ (∀ m ∈ g.expressed, m.upper = true) ∧
      g.dormant.length = 6 ∧ (∀ m ∈ g.dormant, m.upper = false) ∧
      ((get_markers g).filter (fun m => m.upper)).length = 3 ∧
      ((get_markers g).filter (fun m => !m.upper)).length = 6 := by
  obtain ⟨ef, df, hfok, hfe, hfd, hfdm⟩ := process_source_spec ed cf father hfl hf
  obtain ⟨em, dm, hmok, hme, hmd, hmdm⟩ := process_source_spec ed cm mother hml hm
  obtain ⟨ep, dp, hpok, hpe, hpd, hpdm⟩ := process_source_spec ed cp planet hpl hp
  have hexp : ∀ m ∈ [ef, em, ep], m.upper = true := by
    intro m hmm
    rcases mem_triple hmm with he | he | he <;> rw [he]
    · exact hfe
    · exact hme
    · exact hpe
  have hdor : ∀ m ∈ df ++ dm ++ dp, m.upper = false := by
    intro m hmm
    rcases List.mem_append.mp hmm with hmm2 | hmm2
    · rcases List.mem_append.mp hmm2 with hmm3 | hmm3
      · exact hfdm m hmm3
      · exact hmdm m hmm3
    · exact hpdm m hmm2
  refine ⟨⟨[ef, em, ep], df ++ dm ++ dp⟩, ?_, ?_, ?_, ?_, rfl, hexp, ?_, hdor, ?_, ?_⟩
  · simp only [mkGenetics, hfok, hmok, hpok]
    rfl
  · simp [get_markers, hfd, hmd, hpd]
  · simp [get_markers]
  · simp [get_markers]
  · simp [hfd, hmd, hpd]
  · rw [get_markers]
    rw [List.filter_append]
    have hup3 : ([ef, em, ep].filter (fun m => m.upper)) = [ef, em, ep] :=
      List.filter_eq_self.mpr hexp
    have hdn : ((df ++ dm ++ dp).filter (fun m => m.upper)) = [] :=
      List.filter_eq_nil_iff.mpr (by intro m hmm; simp [hdor m hmm])
    rw [hup3, hdn]
    simp
  · rw [get_markers]
    rw [List.filter_append]
    have hup0 : ([ef, em, ep].filter (fun m => !m.upper)) = [] :=
      List.filter_eq_nil_iff.mpr (by intro m hmm; simp [hexp m hmm])
    have hdall : ((df ++ dm ++ dp).filter (fun m => !m.upper)) = df ++ dm ++ dp :=
      List.filter_eq_self.mpr (by intro m hmm; simp [hdor m hmm])
    rw [hup0, hdall]
    simp [hfd, hmd, hpd]

/-- C6 witness: both construction modes at concrete marker groups. -/
theorem get_markers_correct_witness :
    (∃ g, mkGenetics true 0 0 0
        [⟨'A', true⟩, ⟨'D', false⟩, ⟨'E', false⟩]
        [⟨'B', true⟩, ⟨'I', false⟩, ⟨'M', false⟩]
        [⟨'E', true⟩, ⟨'A', false⟩, ⟨'D', false⟩] = .ok g ∧
      (get_markers g).length = 9 ∧
      ((get_markers g).filter (fun m => m.upper)).length = 3) ∧
    (∃ g, mkGenetics false 1 2 0
        [⟨'A', true⟩, ⟨'D', true⟩, ⟨'E', true⟩]
        [⟨'B', true⟩, ⟨'I', true⟩, ⟨'M', true⟩]
        [⟨'E', true⟩, ⟨'A', true⟩, ⟨'D', true⟩] = .ok g ∧
      (get_markers g).length = 9 ∧
      ((get_markers g).filter (fun m => m.upper)).length = 3) := by
  constructor
  · obtain ⟨g, h1, h2, _, _, _, _, _, _, h9, _⟩ :=
      get_markers_correct true 0 0 0
        [⟨'A', true⟩, ⟨'D', false⟩, ⟨'E', false⟩]
        [⟨'B', true⟩, ⟨'I', false⟩, ⟨'M', false⟩]
        [⟨'E', true⟩, ⟨'A', false⟩, ⟨'D', false⟩]
        rfl rfl rfl (by decide) (by decide) (by decide)
    exact ⟨g, h1, h2, h9⟩
  · obtain ⟨g, h1, h2, _, _, _, _, _, _, h9, _⟩ :=
      get_markers_correct false 1 2 0
        [⟨'A', true⟩, ⟨'D', true⟩, ⟨'E', true⟩]
        [⟨'B', true⟩, ⟨'I', true⟩, ⟨'M', true⟩]
        [⟨'E', true⟩, ⟨'A', true⟩, ⟨'D', true⟩]
        rfl rfl rfl (by decide) (by decide) (by decide)
    exact ⟨g, h1, h2, h9⟩

/-- C7 (counterexample): a group with the wrong marker count is NOT
rejected: preset-mode construction with a 4-marker father group (one
upper-case marker) succeeds, yielding 7 dormant markers. -/
theorem genetics_wrong_count_counterexample :
    mkGenetics true 0 0 0
      [⟨'A', true⟩, ⟨'D', false⟩, ⟨'E', false⟩, ⟨'B', false⟩]
      [⟨'D', true⟩, ⟨'A', false⟩, ⟨'E', false⟩]
      [⟨'B', true⟩, ⟨'M', false⟩, ⟨'I', false⟩] =
    .ok ⟨[⟨'A', true⟩, ⟨'D', true⟩, ⟨'B', true⟩],
         [⟨'D', false⟩, ⟨'E', false⟩, ⟨'B', false⟩, ⟨'A', false⟩,
          ⟨'E', false⟩, ⟨'M', false⟩, ⟨'I', false⟩]⟩ := by
  rfl

/-- C7 (amended): preset-mode construction fails (with the
no-upper-case `ValueError`) whenever some group contains no upper-case
marker, and the failure aborts the whole construction before anything
downstream of the `Genetics` value — in particular any AttributeRange
mutation — can run; a wrong marker count alone is not validated. -/
theorem genetics_validation (cf cm cp : ℕ)
    (father mother planet : List Marker)
    (h : father.find? (fun m => m.upper) = none ∨
         mother.find? (fun m => m.upper) = none ∨
         planet.find? (fun m => m.upper) = none) :
    ∃ msg, mkGenetics true cf cm cp father mother planet = .error msg ∧
      ∀ (build : Genetics → List AttributeRange),
        Except.map build (mkGenetics true cf cm cp father mother planet) =
          .error msg := by
  rcases h with h | h | h
  · have hperr : process_source true cf father =
        .error "Expression is defined, but no uppercase marker found" := by
      simp [process_source, h]
    have herr : mkGenetics true cf cm cp father mother planet =
        .error "Expression is defined, but no uppercase marker found" := by
      simp only [mkGenetics, hperr]
      rfl
    exact ⟨_, herr, fun build => by rw [herr]; rfl⟩
  · cases hfa : process_source true cf father with
    | error e =>
      have herr : mkGenetics true cf cm cp father mother planet = .error e := by
        simp only [mkGenetics, hfa]
        rfl
      exact ⟨e, herr, fun build => by rw [herr]; rfl⟩
    | ok x =>
      have hperr : process_source true cm mother =
          .error "Expression is defined, but no uppercase marker found" := by
        simp [process_source, h]
      have herr : mkGenetics true cf cm cp father mother planet =
          .error "Expression is defined, but no uppercase marker found" := by
        simp only [mkGenetics, hfa, hperr]
        rfl
      exact ⟨_, herr, fun build => by rw [herr]; rfl⟩
  · cases hfa : process_source true cf father with
    | error e =>
      have herr : mkGenetics true cf cm cp father mother planet = .error e := by
        simp only [mkGenetics, hfa]
        rfl
      exact ⟨e, herr, fun build => by rw [herr]; rfl⟩
    | ok x =>
      cases hmo : process_source true cm mother with
      | error e =>
        have herr : mkGenetics true cf cm cp father mother planet = .error e := by
          simp only [mkGenetics, hfa, hmo]
          rfl
        exact ⟨e, herr, fun build => by rw [herr]; rfl⟩
      | ok y =>
        have hperr : process_source true cp planet =
            .error "Expression is defined, but no uppercase marker found" := by
          simp [process_source, h]
        have herr : mkGenetics true cf cm cp father mother planet =
            .error "Expression is defined, but no uppercase marker found" := by
          simp only [mkGenetics, hfa, hmo, hperr]
          rfl
        exact ⟨_, herr, fun build => by rw [herr]; rfl⟩

/-- C7 witness: an all-lower-case father group under preset expression
makes construction fail, with every downstream build aborted. -/
theorem genetics_validation_witness :
    ∃ msg, mkGenetics true 0 0 0
        [⟨'A', false⟩, ⟨'D', false⟩, ⟨'E', false⟩]
        [⟨'D', true⟩, ⟨'A', false⟩, ⟨'E', false⟩]
        [⟨'B', true⟩, ⟨'M', false⟩, ⟨'I', false⟩] = .error msg ∧
      ∀ (build : Genetics → List AttributeRange),
        Except.map build (mkGenetics true 0 0 0
          [⟨'A', false⟩, ⟨'D', false⟩, ⟨'E', false⟩]
          [⟨'D', true⟩, ⟨'A', false⟩, ⟨'E', false⟩]
          [⟨'B', true⟩, ⟨'M', false⟩, ⟨'I', false⟩]) = .error msg :=
  genetics_validation 0 0 0
    [⟨'A', false⟩, ⟨'D', false⟩, ⟨'E', false⟩]
    [⟨'D', true⟩, ⟨'A', false⟩, ⟨'E', false⟩]
    [⟨'B', true⟩, ⟨'M', false⟩, ⟨'I', false⟩]
    (Or.inl rfl)

theorem boundary_check_id (r : AttributeRange) (h1 : 0 ≤ r.floor)
    (h2 : r.floor ≤ r.ceiling) (h3 : r.ceiling ≤ 99)
    (h4 : r.current = r.floor) :
    boundary_check r = r := by
  obtain ⟨f, c, u⟩ := r
  dsimp only at h1 h2 h3 h4
  subst h4
  exact boundary_check_in_range _ h1 h3 h2

/-- C9: at the exact neutral reference (height 71 in, weight 175 lb)
every somatic floor/ceiling modifier pair is exactly `(0, 0)`, the
Inverse Metabolic Rate slider delta (and every other slider delta) is
exactly `0`, and the somatic stage leaves every
post-genetic-stage ability range unchanged. -/
theorem neutral_size_identity :
    (∀ ability_name : String,
        compute_size_modifiers 71 175 ability_name = (0, 0)) ∧
    (∀ slider_name : String, size_alter_sliders 71 175 slider_name = 0) ∧
    (∀ (ability_name : String) (r : AttributeRange),
        0 ≤ r.floor → r.floor ≤ r.ceiling → r.ceiling ≤ 99 →
        r.current = r.floor →
        size_alter_ability 71 175 ability_name r = r) := by
  have hmods : ∀ ability_name : String,
      compute_size_modifiers 71 175 ability_name = (0, 0) := by
    intro name
    simp only [compute_size_modifiers]
    rw [if_pos (⟨by rw [abs_sub_lt_iff]; constructor <;> norm_num,
      by rw [sub_self, abs_zero]; norm_num⟩ : _ ∧ _)]
  have hsl : ∀ slider_name : String,
      size_alter_sliders 71 175 slider_name = 0 := by
    intro s
    by_cases hs : s = "Inverse Metabolic Rate"
    · simp only [size_alter_sliders, if_pos hs]
      norm_num
    · simp only [size_alter_sliders, if_neg hs]
  refine ⟨hmods, hsl, ?_⟩
  intro name r h1 h2 h3 h4
  have hupd : ({ r with
      floor := r.floor + ((compute_size_modifiers 71 175 name).1 : ℚ),
      ceiling := r.ceiling + ((compute_size_modifiers 71 175 name).2 : ℚ) } :
        AttributeRange) = r := by
    rw [hmods name]
    push_cast
    simp
  simp only [size_alter_ability]
  rw [hupd]
  exact boundary_check_id r h1 h2 h3 h4

/-- C9 witness: the somatic identity applied to the concrete
normalized range `{floor 2, ceiling 40, current 2}` for `Strength`. -/
theorem neutral_size_identity_witness :
    compute_size_modifiers 71 175 "Strength" = (0, 0) ∧
    size_alter_sliders 71 175 "Inverse Metabolic Rate" = 0 ∧
    (0 : ℚ) ≤ (⟨2, 40, 2⟩ : AttributeRange).floor ∧
    size_alter_ability 71 175 "Strength" ⟨2, 40, 2⟩ = ⟨2, 40, 2⟩ :=
  ⟨neutral_size_identity.1 "Strength",
   neutral_size_identity.2.1 "Inverse Metabolic Rate",
   by norm_num,
   neutral_size_identity.2.2 "Strength" ⟨2, 40, 2⟩ (by norm_num) (by norm_num)
     (by norm_num) rfl⟩

theorem late_decay_at_120 : late_decay 120 = 1 := by
  rw [late_decay]
  norm_num

theorem compute_age_modifiers_strength_120 :
    compute_age_modifiers 120 "Strength" =
      Real.exp (-(((120 : ℝ) - 35) ^ 2) / (2 * (35 : ℝ) ^ 2)) := by
  rw [compute_age_modifiers,
    show ability_age_curve "Strength" = (CurveKind.bell, 35, 35) from rfl]
  rw [late_decay_at_120]
  push_cast
  norm_num

/-- C5: the chronological stage sets `current = floor + raw*late*(ceiling-floor)`,
overwriting any prior current and leaving floor/ceiling unchanged; the
curve family is looked up with default `(sigmoid, 0.50, 3.0)` for
unlisted abilities; and for the bell curve `(35, 35)` (Strength) at
age 120 the late-life decay factor is `exp 0 = 1` exactly, so the
final current is `floor + exp(-(120-35)^2/(2*35^2))*(ceiling-floor)`. -/
theorem age_stage_correct :
    (∀ (age : ℤ) (ability : String) (r : AgeRange),
        (age_alter_ability age ability r).current =
          r.floor + compute_age_modifiers age ability * (r.ceiling - r.floor) ∧
        (age_alter_ability age ability r).floor = r.floor ∧
        (age_alter_ability age ability r).ceiling = r.ceiling) ∧
    (∀ (age : ℤ) (ability : String) (r : AgeRange) (x : ℝ),
        (age_alter_ability age ability { r with current := x }).current =
          (age_alter_ability age ability r).current) ∧
    (∀ ability : String,
        ability ∉ ABILITY_AGE_CURVES.map Prod.fst →
        ability_age_curve ability = (CurveKind.sigmoid, 1 / 2, 3)) ∧
    ability_age_curve "Strength" = (CurveKind.bell, 35, 35) ∧
    late_decay 120 = 1 ∧
    (∀ r : AgeRange,
        (age_alter_ability 120 "Strength" r).current =
          r.floor + Real.exp (-(((120 : ℝ) - 35) ^ 2) / (2 * (35 : ℝ) ^ 2)) *
            (r.ceiling - r.floor)) := by
  refine ⟨fun age ability r => ⟨rfl, rfl, rfl⟩, fun age ability r x => rfl,
    ?_, rfl, late_decay_at_120, ?_⟩
  · intro ab hmem
    have hn : ABILITY_AGE_CURVES.find? (fun p => p.1 == ab) = none := by
      rw [List.find?_eq_none]
      intro x hx
      simp only [beq_iff_eq]
      intro he
      exact hmem (he ▸ List.mem_map_of_mem Prod.fst hx)
    rw [ability_age_curve, hn]
  · intro r
    rw [show (age_alter_ability 120 "Strength" r).current =
        r.floor + compute_age_modifiers 120 "Strength" * (r.ceiling - r.floor)
      from rfl]
    rw [compute_age_modifiers_strength_120]

/-- C5 witness: the default-curve lookup discharged at the concrete
unlisted ability name `"Juggling"`. -/
theorem age_stage_correct_witness :
    "Juggling" ∉ ABILITY_AGE_CURVES.map Prod.fst ∧
    ability_age_curve "Juggling" = (CurveKind.sigmoid, 1 / 2, 3) ∧
    late_decay 120 = 1 :=
  ⟨by decide, age_stage_correct.2.2.1 "Juggling" (by decide),
   age_stage_correct.2.2.2.2.1⟩

theorem late_decay_bounds (age : ℤ) :
    0 < late_decay age ∧ late_decay age ≤ 1 := by
  constructor
  · exact Real.exp_pos _
  · rw [late_decay, Real.exp_le_one_iff]
    have hmx : (0 : ℝ) ≤ max ((age : ℝ) - 120) 0 := le_max_right _ _
    nlinarith

theorem compute_age_modifiers_bounds (age : ℤ) (ability : String) :
    0 ≤ compute_age_modifiers age ability ∧
    compute_age_modifiers age ability ≤ 1 := by
  obtain ⟨hlp, hl1⟩ := late_decay_bounds age
  rw [compute_age_modifiers]
  rcases hcv : ability_age_curve ability with ⟨k, a, b⟩
  cases k
  · constructor
    · exact mul_nonneg (Real.exp_pos _).le hlp.le
    · have hraw : Real.exp (-(((age : ℝ) - (a : ℝ)) ^ 2) / (2 * (b : ℝ) ^ 2)) ≤ 1 := by
        rw [Real.exp_le_one_iff]
        apply div_nonpos_iff.mpr
        exact Or.inr ⟨neg_nonpos.mpr (sq_nonneg _), by positivity⟩
      exact mul_le_one₀ hraw hlp.le hl1
  · constructor
    · have hd : (0 : ℝ) <
          1 + Real.exp (-(b : ℝ) *
            (min (max (((age : ℝ) - 17) / (145 - 17)) 0) 1 - (a : ℝ))) := by
        have := Real.exp_pos (-(b : ℝ) *
          (min (max (((age : ℝ) - 17) / (145 - 17)) 0) 1 - (a : ℝ)))
        linarith
      exact mul_nonneg (by positivity) hlp.le
    · have hraw : (1 : ℝ) /
          (1 + Real.exp (-(b : ℝ) *
            (min (max (((age : ℝ) - 17) / (145 - 17)) 0) 1 - (a : ℝ)))) ≤ 1 := by
        rw [div_le_one (by positivity)]
        have := Real.exp_pos (-(b : ℝ) *
          (min (max (((age : ℝ) - 17) / (145 - 17)) 0) 1 - (a : ℝ)))
        linarith
      exact mul_le_one₀ hraw (by positivity) hl1

/-- C10: `boundary_check` never leaves `floor > ceiling`, the age
modifier always lies in `[0, 1]`, and hence the final chronological
write `current = floor + f*(ceiling - floor)` lands inside
`[floor, ceiling]` whenever `floor ≤ ceiling` — so after construction
every ability satisfies `floor ≤ current ≤ ceiling`. -/
theorem final_range_invariant :
    (∀ r : AttributeRange,
        (boundary_check r).floor ≤ (boundary_check r).ceiling) ∧
    (∀ (age : ℤ) (ability : String),
        0 ≤ compute_age_modifiers age ability ∧
        compute_age_modifiers age ability ≤ 1) ∧
    (∀ (age : ℤ) (ability : String) (r : AgeRange),
        r.floor ≤ r.ceiling →
        r.floor ≤ (age_alter_ability age ability r).current ∧
        (age_alter_ability age ability r).current ≤ r.ceiling) := by
  refine ⟨boundary_check_floor_le_ceiling, compute_age_modifiers_bounds, ?_⟩
  intro age ability r hle
  obtain ⟨h0, h1⟩ := compute_age_modifiers_bounds age ability
  have hcur : (age_alter_ability age ability r).current =
      r.floor + compute_age_modifiers age ability * (r.ceiling - r.floor) := rfl
  rw [hcur]
  constructor
  · nlinarith
  · nlinarith

/-- C10 witness: the in-range conclusion applied at the concrete range
`{floor 0, ceiling 1}` at age 30 for Strength. -/
theorem final_range_invariant_witness :
    (⟨0, 1, 0⟩ : AgeRange).floor ≤ (⟨0, 1, 0⟩ : AgeRange).ceiling ∧
    (⟨0, 1, 0⟩ : AgeRange).floor ≤
      (age_alter_ability 30 "Strength" ⟨0, 1, 0⟩).current ∧
    (age_alter_ability 30 "Strength" ⟨0, 1, 0⟩).current ≤
      (⟨0, 1, 0⟩ : AgeRange).ceiling :=
  ⟨by norm_num,
   final_range_invariant.2.2 30 "Strength" ⟨0, 1, 0⟩ (by norm_num)⟩

/-- C1 witness: the amended invariant applied at the concrete input
`floor = -5, ceiling = 0` (a one-sided undershoot). -/
theorem boundary_check_invariant_witness :
    boundary_check_safe ((-5 : ℤ) : ℚ) ((0 : ℤ) : ℚ) ∧
    0 ≤ (boundary_check ⟨((-5 : ℤ) : ℚ), ((0 : ℤ) : ℚ), ((0 : ℤ) : ℚ)⟩).floor ∧
    (boundary_check ⟨((-5 : ℤ) : ℚ), ((0 : ℤ) : ℚ), ((0 : ℤ) : ℚ)⟩).floor ≤
      (boundary_check ⟨((-5 : ℤ) : ℚ), ((0 : ℤ) : ℚ), ((0 : ℤ) : ℚ)⟩).ceiling ∧
    (boundary_check ⟨((-5 : ℤ) : ℚ), ((0 : ℤ) : ℚ), ((0 : ℤ) : ℚ)⟩).ceiling ≤ 99 ∧
    (boundary_check ⟨((-5 : ℤ) : ℚ), ((0 : ℤ) : ℚ), ((0 : ℤ) : ℚ)⟩).current =
      (boundary_check ⟨((-5 : ℤ) : ℚ), ((0 : ℤ) : ℚ), ((0 : ℤ) : ℚ)⟩).floor :=
  ⟨Or.inl (by norm_num [boundary_check_safe]),
   boundary_check_invariant (-5) 0 0 (Or.inl (by norm_num [boundary_check_safe]))⟩

end Harmony
